import Mathlib

/-!
Verification of the metro-api-client repository (TypeScript).

We shallowly embed the client's pure logic: the query encoders
(`serializeProps`, `serializeTimeFilter`, per-endpoint query building), the
response normalizers (`deserializeCollatedTrain` in both revisions found in
the repository, `deserializeHistoryEntry`, `deserializeTrainHistorySummary`,
the post-decode block of `getTrains`) and the stream `onMessage` handlers.

JavaScript values are modelled by the inductive `Json` below; `undefined` is
modelled as `Option.none` (a missing object field), JS `Date` objects as
`Json.date (t : Option Int)` where `none` is an Invalid Date (NaN time
value).  Member access, truthiness and `new Date(...)` follow the JS
semantics the source relies on.  In-place mutation of a decoded object is
embedded by value passing: each function returns the value of the object
after the source's assignments; companion `...After` definitions record the
post-call state of the function's argument.
-/

/-- A JavaScript value as manipulated by the client: JSON values plus `Date`
objects (`date none` is an Invalid Date, i.e. a Date with NaN time value). -/
inductive Json where
  | null : Json
  | bool : Bool → Json
  | num : Int → Json
  | str : String → Json
  | date : Option Int → Json
  | arr : List Json → Json
  | obj : List (String × Json) → Json
deriving Repr

/-- Field lookup on an object; `none` models JS `undefined` (also for
property reads on primitives, which yield `undefined` in JS). -/
def Json.get : Json → String → Option Json
  | .obj fs, k => fs.lookup k
  | _, _ => none

/-- Replace (or append) a field of an object; on a non-object this is a
no-op, matching the silent failure of property assignment on primitives. -/
def setKey : List (String × Json) → String → Json → List (String × Json)
  | [], k, v => [(k, v)]
  | (k', v') :: fs, k, v => if k' = k then (k, v) :: fs else (k', v') :: setKey fs k v

def Json.set : Json → String → Json → Json
  | .obj fs, k, v => .obj (setKey fs k v)
  | j, _, _ => j

/-- JS truthiness of a possibly-`undefined` value. -/
def truthy : Option Json → Bool
  | none => false
  | some .null => false
  | some (.bool b) => b
  | some (.num n) => decide (n ≠ 0)
  | some (.str s) => decide (s ≠ "")
  | some (.date _) => true
  | some (.arr _) => true
  | some (.obj _) => true

/-- `Array.isArray`. -/
def isArr : Option Json → Bool
  | some (.arr _) => true
  | _ => false

/-- Plain member access `x.k`: throws a TypeError on `undefined`/`null`,
yields `undefined` on other primitives, looks the key up on objects. -/
def jsAccess : Option Json → String → Except String (Option Json)
  | none, k => .error ("TypeError: cannot read properties of undefined (reading " ++ k ++ ")")
  | some .null, k => .error ("TypeError: cannot read properties of null (reading " ++ k ++ ")")
  | some (.obj fs), k => .ok (fs.lookup k)
  | some _, _ => .ok none

/-- Optional-chaining access `x?.k`: `undefined` when `x` is
`undefined`/`null`, otherwise like plain access (never throws). -/
def jsOptAccess : Option Json → String → Option Json
  | some (.obj fs), k => fs.lookup k
  | _, _ => none

-- Calendar arithmetic used to model the host runtime's `Date` handling
-- (days-from-civil / civil-from-days, proleptic Gregorian calendar).

def isLeapYear (y : Int) : Bool :=
  (Int.emod y 4 == 0 && Int.emod y 100 != 0) || Int.emod y 400 == 0

def daysInMonth (y m : Int) : Int :=
  if m = 2 then (if isLeapYear y then 29 else 28)
  else if m = 4 ∨ m = 6 ∨ m = 9 ∨ m = 11 then 30
  else 31

/-- Days since 1970-01-01 of a civil date. -/
def daysFromCivil (y m d : Int) : Int :=
  let y' := if m ≤ 2 then y - 1 else y
  let era := Int.fdiv y' 400
  let yoe := y' - era * 400
  let mp := Int.fmod (m + 9) 12
  let doy := Int.fdiv (153 * mp + 2) 5 + d - 1
  let doe := yoe * 365 + Int.fdiv yoe 4 - Int.fdiv yoe 100 + doy
  era * 146097 + doe - 719468

/-- Civil date (year, month, day) of a count of days since 1970-01-01. -/
def civilFromDays (z : Int) : Int × Int × Int :=
  let z' := z + 719468
  let era := Int.fdiv z' 146097
  let doe := z' - era * 146097
  let yoe := Int.fdiv (doe - Int.fdiv doe 1460 + Int.fdiv doe 36524 - Int.fdiv doe 146096) 365
  let y := yoe + era * 400
  let doy := doe - (365 * yoe + Int.fdiv yoe 4 - Int.fdiv yoe 100)
  let mp := Int.fdiv (5 * doy + 2) 153
  let d := doy - Int.fdiv (153 * mp + 2) 5 + 1
  let m := if mp < 10 then mp + 3 else mp - 9
  (if m ≤ 2 then y + 1 else y, m, d)

def charDigit (c : Char) : Option Nat :=
  if c.isDigit then some (c.toNat - 48) else none

def twoDigits (a b : Char) : Option Nat := do
  pure ((← charDigit a) * 10 + (← charDigit b))

def fourDigits (a b c d : Char) : Option Nat := do
  pure ((← twoDigits a b) * 100 + (← twoDigits c d))

/--
Modelled from the spec and the host runtime: wire timestamps are
"epoch-millisecond or ISO-8601" values; JS `new Date(string)` parses
ISO-8601 strings and yields an Invalid Date on anything unparseable.  We
model the full-UTC-timestamp fragment `YYYY-MM-DDThh:mm:ssZ` of ISO-8601;
any other string is unparseable (`none`).
-/
def parseDateString (s : String) : Option Int :=
  match s.toList with
  | [y1, y2, y3, y4, '-', mo1, mo2, '-', d1, d2, 'T',
     h1, h2, ':', mi1, mi2, ':', s1, s2, 'Z'] => do
      let y ← fourDigits y1 y2 y3 y4
      let mo ← twoDigits mo1 mo2
      let d ← twoDigits d1 d2
      let h ← twoDigits h1 h2
      let mi ← twoDigits mi1 mi2
      let sec ← twoDigits s1 s2
      if 1 ≤ mo ∧ mo ≤ 12 ∧ 1 ≤ (d : Int) ∧ (d : Int) ≤ daysInMonth y mo ∧
          h ≤ 23 ∧ mi ≤ 59 ∧ sec ≤ 59 then
        some ((daysFromCivil y mo d * 86400 + h * 3600 + mi * 60 + sec) * 1000)
      else none
  | _ => none

/-- `new Date(x)` for a possibly-`undefined` argument:
`new Date(undefined)` is an Invalid Date, `new Date(null)` is the epoch,
numbers are epoch milliseconds, strings are parsed (Invalid Date on
failure), a `Date` argument is copied, and objects/arrays (after their
to-primitive coercion fails to produce a parseable value) give an Invalid
Date. -/
def jsNewDate : Option Json → Json
  | none => .date none
  | some .null => .date (some 0)
  | some (.bool b) => .date (some (if b then 1 else 0))
  | some (.num n) => .date (some n)
  | some (.str s) => .date (parseDateString s)
  | some (.date t) => .date t
  | some (.arr _) => .date none
  | some (.obj _) => .date none

/-- `date.toISOString().split('T')[0]` on a valid Date holding epoch
milliseconds: the `YYYY-MM-DD` day part. -/
def padNum (width : Nat) (n : Int) : String :=
  let s := toString n
  if s.length < width then String.mk (List.replicate (width - s.length) '0') ++ s else s

def isoDatePart (ms : Int) : String :=
  let days := Int.fdiv ms 86400000
  let c := civilFromDays days
  padNum 4 c.1 ++ "-" ++ padNum 2 c.2.1 ++ "-" ++ padNum 2 c.2.2

/-!
## Query encoder

`serializeProps`, `serializeTimeFilter` and the query-string construction of
each endpoint method, from src/client.ts (both revisions; they agree except
where noted).  A query is modelled as the ordered list of appended
`(name, value)` pairs.  A `Date` held in an options object is modelled by
its `getTime()` epoch-millisecond value.
-/

/-- `serializeProps`: `props.join(',')`. -/
def serializeProps (props : List String) : String :=
  String.intercalate "," props

/-- The `TimeFilter` union type from types.ts:
`{at} | {from} | {to} | {from, to}` (fields hold `Date`s, modelled as epoch
milliseconds). -/
inductive TimeFilter where
  | atTime (t : Int)
  | fromOnly (t : Int)
  | toOnly (t : Int)
  | fromTo (f t : Int)
deriving Repr, DecidableEq

/-- `serializeTimeFilter`: `'at' in` short-circuits to the bare millisecond
value; otherwise each of `from`/`to` contributes its millisecond value if
present (empty string if not) around a `"..."` separator. -/
def serializeTimeFilter : TimeFilter → String
  | .atTime t => toString t
  | .fromOnly f => toString f ++ "..." ++ ""
  | .toOnly t => "" ++ "..." ++ toString t
  | .fromTo f t => toString f ++ "..." ++ toString t

/-- The recurring source pattern `if (opts.x) queryParams.append(name, f(x))`
for an option that, when present, is always truthy (arrays, objects,
`Date`s): appended exactly when present. -/
def appendIfPresent {α : Type} (name : String) (f : α → String) :
    Option α → List (String × String)
  | some x => [(name, f x)]
  | none => []

/-- `if (opts.limit) append('limit', limit.toString())`: a present numeric
option is appended only when truthy, so `0` is dropped. -/
def appendIfTruthyNum (name : String) : Option Int → List (String × String)
  | some l => if l ≠ 0 then [(name, toString l)] else []
  | none => []

/-- `if (opts.flag) append(name, '')`: a boolean flag appended, with an
empty value, exactly when it is `true`. -/
def appendIfTrue (name : String) : Option Bool → List (String × String)
  | some b => if b then [(name, "")] else []
  | none => []

/-- `if (opts.active !== undefined) append('active', opts.active ? '1' : '0')`:
appended with an explicit `'1'`/`'0'` value whenever specified, including
`false`. -/
def appendActive : Option Bool → List (String × String)
  | some a => [("active", if a then "1" else "0")]
  | none => []

/-- `TrainsOptions` (also the shape of `TrainOptions` and the due-times
options): an optional props filter. -/
structure TrainsOptions where
  props : Option (List String)

/-- Query built by `getTrains` (`if (opts?.props) append('props', ...)`;
an array is always truthy in JS, so presence alone decides). -/
def getTrainsQuery (opts : Option TrainsOptions) : List (String × String) :=
  match opts with
  | some o => appendIfPresent "props" serializeProps o.props
  | none => []

/-- `TrainHistoryOptions` from types.ts. -/
structure TrainHistoryOptions where
  time : Option TimeFilter
  limit : Option Int
  active : Option Bool
  props : Option (List String)

/-- Query built by `getTrainHistory`: `time` if present, `limit` if truthy
(so a `limit` of `0` is dropped), `active` as `'1'`/`'0'` whenever it is not
`undefined` (including `false`), `props` if present. -/
def getTrainHistoryQuery (opts : Option TrainHistoryOptions) : List (String × String) :=
  match opts with
  | none => []
  | some o =>
      appendIfPresent "time" serializeTimeFilter o.time ++
      appendIfTruthyNum "limit" o.limit ++
      appendActive o.active ++
      appendIfPresent "props" serializeProps o.props

/-- `HeartbeatErrorsOptions` from types.ts. -/
structure HeartbeatErrorsOptions where
  warnings : Option Bool
  time : Option TimeFilter
  apis : Option (List String)

/-- Query built by `getHeartbeatErrors`: `warnings` appended with an empty
value when the flag is truthy (i.e. `true`), `time` and `apis` if present. -/
def getHeartbeatErrorsQuery (opts : Option HeartbeatErrorsOptions) : List (String × String) :=
  match opts with
  | none => []
  | some o =>
      appendIfTrue "warnings" o.warnings ++
      appendIfPresent "time" serializeTimeFilter o.time ++
      appendIfPresent "apis" (String.intercalate ",") o.apis

/-- `TimetableOptions` from types.ts (`date` as epoch milliseconds;
`direction` and `emptyManeuvers` as their string values). -/
structure TimetableOptions where
  date : Option Int
  trn : Option String
  station : Option String
  direction : Option String
  emptyManeuvers : Option String
  emptyManeuverProps : Option (List String)
  tableProps : Option (List String)

/-- One iteration of `getTimetable`'s loop over
`['trn','station','direction','emptyManeuvers']`: appended when the string
is truthy (so an empty string is dropped). -/
def timetableStringOpt (name : String) : Option String → List (String × String)
  | some s => if s ≠ "" then [(name, s)] else []
  | none => []

/-- Query built by `getTimetable`: the four string options, then `date` as
`toISOString().split('T')[0]`, then the two props filters. -/
def getTimetableQuery (opts : Option TimetableOptions) : List (String × String) :=
  match opts with
  | none => []
  | some o =>
      timetableStringOpt "trn" o.trn ++
      timetableStringOpt "station" o.station ++
      timetableStringOpt "direction" o.direction ++
      timetableStringOpt "emptyManeuvers" o.emptyManeuvers ++
      appendIfPresent "date" isoDatePart o.date ++
      appendIfPresent "emptyManeuverProps" serializeProps o.emptyManeuverProps ++
      appendIfPresent "tableProps" serializeProps o.tableProps

/-- The `type` values accepted by the older revision's `stream` method. -/
inductive StreamType where
  | all
  | trains
  | errors
deriving Repr, DecidableEq

def streamTypeStr : StreamType → String
  | .all => "all"
  | .trains => "trains"
  | .errors => "errors"

/-- `StreamOptions` as used by the older revision's `stream` method
(`type`, `trns`, `warnings`, `apis`). -/
structure StreamOptions where
  type : Option StreamType
  trns : Option (List String)
  warnings : Option Bool
  apis : Option (List String)

/-- Query built by the older revision's `stream`:
`append('type', opts?.type || "all")` always appends a `type` parameter,
defaulting to `"all"`; then `trains` only when `type === "trains"`, and
`warnings`/`apis` only when `type === "errors"`. -/
def streamQuery (opts : Option StreamOptions) : List (String × String) :=
  ("type",
    match opts with
    | some o => match o.type with
                | some t => streamTypeStr t
                | none => "all"
    | none => "all") ::
  match opts with
  | none => []
  | some o =>
      if o.type = some .trains then
        appendIfPresent "trains" (String.intercalate ",") o.trns
      else if o.type = some .errors then
        appendIfTrue "warnings" o.warnings ++
        appendIfPresent "apis" (String.intercalate ",") o.apis
      else []

/-- Query built by `streamHistory` (current revision): an optional
`trainProps` filter. -/
def streamHistoryQuery (trainProps : Option (List String)) : List (String × String) :=
  appendIfPresent "trainProps" serializeProps trainProps

/-- Query built by `streamHeartbeatErrors` (current revision): `warnings`
is appended, with an empty value, exactly when the caller registered an
`onHeartbeatWarnings` callback; `apis` if present in the options. -/
def streamHeartbeatErrorsQuery (hasWarningsCallback : Bool)
    (apis : Option (List String)) : List (String × String) :=
  (if hasWarningsCallback then [("warnings", "")] else []) ++
  appendIfPresent "apis" (String.intercalate ",") apis

/-!
## Response normalizer

`deserializeCollatedTrain` exists in two revisions in the repository: the
one in src/client.ts (here `...V1`), which accesses
`plannedDestination.from.time` and `nextPlatform.time.actualScheduledTime`
without guarding `from` / `time`, and the revision shipped alongside the
current types.ts (here `...V2`), which guards both.  Both share the
`plannedScheduledTime` / `actualPredictedTime` field mix-up in the
`nextPlatforms` loop.

`structuredClone(x)` is a deep value copy; in the value-passing embedding
the cloned `copy` is simply the argument's value, and the fact that all
writes target the clone is recorded by the `...ArgAfter` definitions.
-/

/-- Loop body for a `plannedDestinations` element, older revision:
`plannedDestination.from.time` is a plain member access, so it throws a
TypeError when the element's `from` object is absent. -/
def deserializePlannedDestinationV1 (pd : Json) : Except String Json := do
  let fromV ← jsAccess (some pd) "from"
  let fromTime ← jsAccess fromV "time"
  if fromTime.isSome then
    return pd.set "from" ((fromV.getD .null).set "time" (jsNewDate fromTime))
  else
    return pd

/-- Loop body for a `plannedDestinations` element, current revision:
`plannedDestination.from?.time` optional-chains over an absent `from`. -/
def deserializePlannedDestinationV2 (pd : Json) : Except String Json := do
  let fromV ← jsAccess (some pd) "from"
  let fromTime := jsOptAccess fromV "time"
  if fromTime.isSome then
    return pd.set "from" ((fromV.getD .null).set "time" (jsNewDate fromTime))
  else
    return pd

/-- Loop body for a `nextPlatforms` element, older revision:
`nextPlatform.time.actualScheduledTime` throws when `time` is absent; note
that the second guard tests `plannedScheduledTime` but converts
`actualPredictedTime`, exactly as the source does. -/
def deserializeNextPlatformV1 (np : Json) : Except String Json := do
  let timeV ← jsAccess (some np) "time"
  let ast ← jsAccess timeV "actualScheduledTime"
  let np := if ast.isSome then
      np.set "time" ((timeV.getD .null).set "actualScheduledTime" (jsNewDate ast))
    else np
  let timeV2 ← jsAccess (some np) "time"
  let pst ← jsAccess timeV2 "plannedScheduledTime"
  if pst.isSome then
    let apt ← jsAccess timeV2 "actualPredictedTime"
    return np.set "time" ((timeV2.getD .null).set "actualPredictedTime" (jsNewDate apt))
  else
    return np

/-- Loop body for a `nextPlatforms` element, current revision: the whole
body is guarded by `if (nextPlatform.time)`, and `actualScheduledTime` is
additionally required to be non-null; the `plannedScheduledTime` /
`actualPredictedTime` mix-up is unchanged. -/
def deserializeNextPlatformV2 (np : Json) : Except String Json := do
  let timeV ← jsAccess (some np) "time"
  if truthy timeV = false then return np
  let ast := jsOptAccess timeV "actualScheduledTime"
  let np := match ast with
    | none => np
    | some .null => np
    | some v => np.set "time" ((timeV.getD .null).set "actualScheduledTime" (jsNewDate (some v)))
  let timeV2 := jsOptAccess (some np) "time"
  let pst := jsOptAccess timeV2 "plannedScheduledTime"
  if pst.isSome then
    let apt := jsOptAccess timeV2 "actualPredictedTime"
    return np.set "time" ((timeV2.getD .null).set "actualPredictedTime" (jsNewDate apt))
  else
    return np

/-- `deserializeCollatedTrain`, older revision (src/client.ts 35–59). -/
def deserializeCollatedTrainV1 (train : Json) : Except String Json := do
  let times0 ← jsAccess (some train) "timesAPI"
  if truthy times0 = false then return train
  let copy := train
  let le := jsOptAccess (copy.get "timesAPI") "lastEvent"
  let leTime := jsOptAccess le "time"
  let copy := if leTime.isSome then
      copy.set "timesAPI" (((copy.get "timesAPI").getD .null).set "lastEvent"
        ((le.getD .null).set "time" (jsNewDate leTime)))
    else copy
  let pds := jsOptAccess (copy.get "timesAPI") "plannedDestinations"
  let copy ← if truthy pds then
      match pds with
      | some (.arr elems) => do
          let elems2 ← elems.mapM deserializePlannedDestinationV1
          pure (copy.set "timesAPI"
            (((copy.get "timesAPI").getD .null).set "plannedDestinations" (.arr elems2)))
      | _ => Except.error "TypeError: plannedDestinations is not iterable"
    else pure copy
  let nps := jsOptAccess (copy.get "timesAPI") "nextPlatforms"
  if truthy nps then
    match nps with
    | some (.arr elems) => do
        let elems2 ← elems.mapM deserializeNextPlatformV1
        return copy.set "timesAPI"
          (((copy.get "timesAPI").getD .null).set "nextPlatforms" (.arr elems2))
    | _ => Except.error "TypeError: nextPlatforms is not iterable"
  else return copy

/-- `deserializeCollatedTrain`, current revision (the client matching the
shipped types.ts, reconstructed source file). -/
def deserializeCollatedTrainV2 (train : Json) : Except String Json := do
  let times0 ← jsAccess (some train) "timesAPI"
  if truthy times0 = false then return train
  let copy := train
  let le := jsOptAccess (copy.get "timesAPI") "lastEvent"
  let leTime := jsOptAccess le "time"
  let copy := if leTime.isSome then
      copy.set "timesAPI" (((copy.get "timesAPI").getD .null).set "lastEvent"
        ((le.getD .null).set "time" (jsNewDate leTime)))
    else copy
  let pds := jsOptAccess (copy.get "timesAPI") "plannedDestinations"
  let copy ← if truthy pds then
      match pds with
      | some (.arr elems) => do
          let elems2 ← elems.mapM deserializePlannedDestinationV2
          pure (copy.set "timesAPI"
            (((copy.get "timesAPI").getD .null).set "plannedDestinations" (.arr elems2)))
      | _ => Except.error "TypeError: plannedDestinations is not iterable"
    else pure copy
  let nps := jsOptAccess (copy.get "timesAPI") "nextPlatforms"
  if truthy nps then
    match nps with
    | some (.arr elems) => do
        let elems2 ← elems.mapM deserializeNextPlatformV2
        return copy.set "timesAPI"
          (((copy.get "timesAPI").getD .null).set "nextPlatforms" (.arr elems2))
    | _ => Except.error "TypeError: nextPlatforms is not iterable"
  else return copy

/-- Post-call state of the argument of `deserializeCollatedTrain` (either
revision): every write in the source targets `copy`, a `structuredClone` of
the argument, so the argument object is left exactly as it was. -/
def deserializeCollatedTrainArgAfter (train : Json) : Json := train

/-- `deserializeHistoryEntry` (identical in both revisions, modulo which
`deserializeCollatedTrain` it calls; this follows src/client.ts 61–70):
convert `date` if present, recurse into a truthy `status`.  Writes target a
`structuredClone`, so the argument is not mutated. -/
def deserializeHistoryEntry (historyEntry : Json) : Except String Json := do
  let copy := historyEntry
  let dateV ← jsAccess (some copy) "date"
  let copy := if dateV.isSome then copy.set "date" (jsNewDate dateV) else copy
  let st ← jsAccess (some copy) "status"
  if truthy st then
    let st2 ← deserializeCollatedTrainV1 (st.getD .null)
    return copy.set "status" st2
  else return copy

/-- `deserializeTrainHistorySummary` (identical in both revisions):
unconditionally converts `firstEntry` and `lastEntry` on a clone. -/
def deserializeTrainHistorySummary (historySummary : Json) : Except String Json := do
  let copy := historySummary
  let fe ← jsAccess (some copy) "firstEntry"
  let copy := copy.set "firstEntry" (jsNewDate fe)
  let le ← jsAccess (some copy) "lastEntry"
  return copy.set "lastEntry" (jsNewDate le)

/-- Per-train body of `getTrains`' normalization loop (src/client.ts
102–110): recurse into a truthy `status`, convert a present `lastChanged`. -/
def normTrainEntryV1 (train : Json) : Except String Json := do
  let st ← jsAccess (some train) "status"
  let train ← if truthy st then do
      let st2 ← deserializeCollatedTrainV1 (st.getD .null)
      pure (train.set "status" st2)
    else pure train
  let lch ← jsAccess (some train) "lastChanged"
  if lch.isSome then return train.set "lastChanged" (jsNewDate lch)
  else return train

/-- The post-decode normalization block of `getTrains` (src/client.ts
99–113): convert a truthy `lastChecked`; if `trains` is truthy and not an
array, run the per-train loop over `Object.values(data.trains)`; arrays
(the `props=trains.keys` case) are skipped entirely. -/
def getTrainsNormalize (data : Json) : Except String Json := do
  let lc ← jsAccess (some data) "lastChecked"
  let data := if truthy lc then data.set "lastChecked" (jsNewDate lc) else data
  let tr ← jsAccess (some data) "trains"
  if truthy tr && !isArr tr then
    match tr with
    | some (.obj fs) => do
        let fs2 ← fs.mapM (fun kv => do
            let v2 ← normTrainEntryV1 kv.2
            pure (kv.1, v2))
        return data.set "trains" (.obj fs2)
    | _ => return data
  else return data

/-- Post-call state of the decoded response object in `getTrains`: the
source assigns converted values into `data`'s own fields
(`data.lastChecked = new Date(...)`, `train.status = ...`,
`train.lastChanged = ...`) and returns that same object, so after the call
the decoded value holds exactly the returned value. -/
def getTrainsDataAfter (data : Json) : Except String Json := getTrainsNormalize data

/-!
## Stream message handlers

An inbound frame carries an event-kind label and an already-decoded JSON
payload (`JSON.parse` is modelled as being given the decoded value).  The
observable behavior of a handler is the list of actions it performs:
invoking a registered payload callback (with the payload it passes) or
logging a console warning.  A `closeConnection` action is included in the
action vocabulary so that "the handler never closes the connection" is a
statement about these functions; no handler in the source contains a close
call, and accordingly no definition below ever emits it.
-/

/-- Which of the optional callbacks were registered with the older
revision's `stream` method. -/
structure StreamCallbacksReg where
  onNewHistory : Bool
  onHeartbeatError : Bool
  onHeartbeatWarning : Bool

/-- Observable actions of the older revision's `stream` onMessage. -/
inductive StreamAction where
  | closeConnection : StreamAction
  | newHistory : Json → StreamAction
  | heartbeatError : Json → StreamAction
  | heartbeatWarning : Json → StreamAction
  | warn : String → StreamAction
deriving Repr

/-- The `onMessage` handler of the older revision's `stream` method
(src/client.ts 262–285): a switch over `'new-history'`,
`'heartbeat-error'`, `'heartbeat-warning'` with optional-call dispatch
(`callbacks.onX?.(data)`) and no default branch — an unrecognized kind does
nothing at all. -/
def streamOnMessageV1 (cbs : StreamCallbacksReg) (eventKind : String) (data : Json) :
    Except String (List StreamAction) := do
  if eventKind = "new-history" then
    let d ← jsAccess (some data) "date"
    let data := if d.isSome then data.set "date" (jsNewDate d) else data
    let tr ← jsAccess (some data) "trains"
    let data ← if truthy tr && !isArr tr then
        match tr with
        | some (.obj fs) => do
            let fs2 ← fs.mapM (fun kv => do
                let st ← jsAccess (some kv.2) "status"
                if truthy st then do
                  let st2 ← deserializeCollatedTrainV1 (st.getD .null)
                  pure (kv.1, kv.2.set "status" st2)
                else pure kv)
            pure (data.set "trains" (.obj fs2))
        | _ => pure data
      else pure data
    return if cbs.onNewHistory then [.newHistory data] else []
  else if eventKind = "heartbeat-error" then
    return if cbs.onHeartbeatError then [.heartbeatError data] else []
  else if eventKind = "heartbeat-warning" then
    return if cbs.onHeartbeatWarning then [.heartbeatWarning data] else []
  else
    return []

/-- Observable actions of the current revision's `streamHistory` onMessage
(all three payload callbacks are required there, so there are no
registration flags). -/
inductive HistoryStreamAction where
  | closeConnection : HistoryStreamAction
  | newTrainHistoryEntries : Json → HistoryStreamAction
  | heartbeatError : Json → HistoryStreamAction
  | heartbeatWarnings : Json → HistoryStreamAction
  | warn : String → HistoryStreamAction
deriving Repr

/-- The `onMessage` handler of the current revision's `streamHistory`:
converts a present `date` before the switch, then dispatches on
`'new-trains-history'` / `'heartbeat-error'` / `'heartbeat-warning'`, and
logs a console warning in the default branch. -/
def streamHistoryOnMessage (eventKind : String) (data : Json) :
    Except String (List HistoryStreamAction) := do
  let d ← jsAccess (some data) "date"
  let data := if d.isSome then data.set "date" (jsNewDate d) else data
  if eventKind = "new-trains-history" then
    let tr ← jsAccess (some data) "trains"
    let data ← if truthy tr && !isArr tr then
        match tr with
        | some (.obj fs) => do
            let fs2 ← fs.mapM (fun kv => do
                let st ← jsAccess (some kv.2) "status"
                if truthy st then do
                  let st2 ← deserializeCollatedTrainV2 (st.getD .null)
                  pure (kv.1, kv.2.set "status" st2)
                else pure kv)
            pure (data.set "trains" (.obj fs2))
        | _ => pure data
      else pure data
    return [.newTrainHistoryEntries data]
  else if eventKind = "heartbeat-error" then
    return [.heartbeatError data]
  else if eventKind = "heartbeat-warning" then
    return [.heartbeatWarnings data]
  else
    return [.warn ("Unknown event type: " ++ eventKind)]

/-!
## Theorems
-/

/-!
## Helper lemmas
-/
@[simp] theorem jsAccess_obj (fs : List (String × Json)) (k : String) :
    jsAccess (some (.obj fs)) k = .ok (fs.lookup k) := rfl

@[simp] theorem except_bind_ok {α β : Type} (a : α) (f : α → Except String β) :
    (Except.ok a >>= f) = f a := rfl

@[simp] theorem except_pure {α : Type} (a : α) :
    (pure a : Except String α) = .ok a := rfl

@[simp] theorem except_bind_err {α β : Type} (e : String) (f : α → Except String β) :
    ((Except.error e : Except String α) >>= f) = .error e := rfl

@[simp] theorem Json.get_obj (fs : List (String × Json)) (k : String) :
    (Json.obj fs).get k = fs.lookup k := rfl

@[simp] theorem Json.set_obj (fs : List (String × Json)) (k : String) (v : Json) :
    (Json.obj fs).set k v = .obj (setKey fs k v) := rfl

theorem lookup_setKey_self (fs : List (String × Json)) (k : String) (v : Json) :
    (setKey fs k v).lookup k = some v := by
  induction fs with
  | nil => simp [setKey, List.lookup]
  | cons hd tl ih =>
    obtain ⟨a, b⟩ := hd
    by_cases h : a = k
    · simp [setKey, h, List.lookup]
    · have hba : (k == a) = false := by simp [Ne.symm h]
      simp [setKey, h, List.lookup, hba, ih]

theorem lookup_setKey_ne (fs : List (String × Json)) (k k' : String) (v : Json)
    (h : k' ≠ k) : (setKey fs k v).lookup k' = fs.lookup k' := by
  induction fs with
  | nil =>
    have hba : (k' == k) = false := by simp [h]
    simp [setKey, List.lookup, hba]
  | cons hd tl ih =>
    obtain ⟨a, b⟩ := hd
    by_cases h2 : a = k
    · subst h2
      have hba : (k' == a) = false := by simp [h]
      simp [setKey, List.lookup, hba]
    · simp [setKey, h2, List.lookup, ih]

-- no-dot for Int.toString
theorem digitChar_ne_dot (m : Nat) : Nat.digitChar m ≠ '.' := by
  rcases m with _|_|_|_|_|_|_|_|_|_|_|_|_|_|_|_|m
  case succ =>
    have h : Nat.digitChar (m + 16) = '*' := by
      simp [Nat.digitChar]
    rw [h]; decide
  all_goals decide

theorem toDigitsCore_ne_dot (b f : Nat) : ∀ (n : Nat) (acc : List Char),
    (∀ c ∈ acc, c ≠ '.') → ∀ c ∈ Nat.toDigitsCore b f n acc, c ≠ '.' := by
  induction f with
  | zero => intro n acc hacc; simpa [Nat.toDigitsCore] using hacc
  | succ f ih =>
    intro n acc hacc c hc
    simp only [Nat.toDigitsCore] at hc
    split at hc
    · rcases List.mem_cons.mp hc with rfl | hc
      · exact digitChar_ne_dot _
      · exact hacc c hc
    · refine ih (n / b) (Nat.digitChar (n % b) :: acc) ?_ c hc
      intro c2 hc2
      rcases List.mem_cons.mp hc2 with rfl | hc2
      · exact digitChar_ne_dot _
      · exact hacc c2 hc2

theorem natRepr_ne_dot (m : Nat) : ∀ c ∈ (Nat.repr m).data, c ≠ '.' := by
  simp only [Nat.repr, Nat.toDigits, List.asString]
  exact toDigitsCore_ne_dot 10 (m + 1) m [] (by simp)

theorem intToString_ne_dot (t : Int) : ∀ c ∈ (toString t).data, c ≠ '.' := by
  show ∀ c ∈ (Int.repr t).data, c ≠ '.'
  cases t with
  | ofNat m => exact natRepr_ne_dot m
  | negSucc m =>
    intro c hc
    simp only [Int.repr] at hc
    rw [String.data_append] at hc
    rcases List.mem_append.mp hc with hc | hc
    · simp at hc; subst hc; decide
    · exact natRepr_ne_dot _ c hc

/-- C7: for every `TimeFilter` value, serialization yields: for `at` the
single decimal millisecond value with no `...` (its characters contain no
dot at all); for `from`+`to` the string `<T1ms>...<T2ms>`; for `from` alone
`<T1ms>...`; for `to` alone `...<T2ms>` — either side of `...` is empty
exactly when that bound is absent. -/
theorem c7_time_filter_encoding :
    ∀ f t : Int,
      serializeTimeFilter (.atTime t) = toString t ∧
      (∀ c ∈ (serializeTimeFilter (.atTime t)).data, c ≠ '.') ∧
      serializeTimeFilter (.fromTo f t) = toString f ++ "..." ++ toString t ∧
      serializeTimeFilter (.fromOnly f) = toString f ++ "..." ∧
      serializeTimeFilter (.toOnly t) = "..." ++ toString t := by
  intro f t
  refine ⟨rfl, intToString_ne_dot t, rfl, ?_, ?_⟩
  · show toString f ++ "..." ++ "" = toString f ++ "..."
    simp
  · show "" ++ "..." ++ toString t = "..." ++ toString t
    simp

/-- Witness for C7 at concrete bounds 5 and 9. -/
theorem c7_time_filter_witness :
    serializeTimeFilter (.fromTo 5 9) = "5...9" ∧ ('9' : Char) ≠ '.' := by
  refine ⟨(c7_time_filter_encoding 5 9).2.2.1.trans (by decide), (c7_time_filter_encoding 5 9).2.1 '9' (by decide)⟩

/-- C1 (refuting instance, code bug): a `nextPlatforms` element whose
`time.actualPredictedTime` is present on the wire (as epoch number
1704067200000) is returned with that field still the wire number, not an
instant, by both revisions of `deserializeCollatedTrain` — the code guards
the conversion on a `plannedScheduledTime` field that does not exist in the
declared `DueTime` type.  Conversely (third conjunct), when an (undeclared)
`plannedScheduledTime` is present, the older revision fabricates an Invalid
Date for an absent `actualPredictedTime`. -/
theorem c1_actualPredictedTime_stays_wire :
    deserializeCollatedTrainV1 (.obj [("timesAPI", .obj [("nextPlatforms", .arr [
        .obj [("code", .str "MTW;4"),
              ("time", .obj [("dueIn", .num 3), ("actualPredictedTime", .num 1704067200000)])]])])])
      = .ok (.obj [("timesAPI", .obj [("nextPlatforms", .arr [
        .obj [("code", .str "MTW;4"),
              ("time", .obj [("dueIn", .num 3), ("actualPredictedTime", .num 1704067200000)])]])])]) ∧
    deserializeCollatedTrainV2 (.obj [("timesAPI", .obj [("nextPlatforms", .arr [
        .obj [("code", .str "MTW;4"),
              ("time", .obj [("dueIn", .num 3), ("actualPredictedTime", .num 1704067200000)])]])])])
      = .ok (.obj [("timesAPI", .obj [("nextPlatforms", .arr [
        .obj [("code", .str "MTW;4"),
              ("time", .obj [("dueIn", .num 3), ("actualPredictedTime", .num 1704067200000)])]])])]) ∧
    deserializeCollatedTrainV1 (.obj [("timesAPI", .obj [("nextPlatforms", .arr [
        .obj [("time", .obj [("plannedScheduledTime", .num 7)])]])])])
      = .ok (.obj [("timesAPI", .obj [("nextPlatforms", .arr [
        .obj [("time", .obj [("plannedScheduledTime", .num 7), ("actualPredictedTime", .date none)])]])])]) :=
  ⟨rfl, rfl, rfl⟩

/-- C2 (code bug in the older revision): with `timesAPI` present, a
`plannedDestinations` element without its `from` object, or a
`nextPlatforms` element without its `time` object (both shapes produced by
server-side `props` filtering and allowed by the response types), makes the
older revision's `deserializeCollatedTrain` throw a TypeError, where the
current revision returns the subtree unchanged (absent stays absent, no
default substituted). -/
theorem c2_old_revision_throws_on_filtered_subtrees :
    deserializeCollatedTrainV1 (.obj [("timesAPI",
        .obj [("plannedDestinations", .arr [.obj [("name", .str "X")]])])])
      = .error "TypeError: cannot read properties of undefined (reading time)" ∧
    deserializeCollatedTrainV1 (.obj [("timesAPI",
        .obj [("nextPlatforms", .arr [.obj [("code", .str "MTW;4")]])])])
      = .error "TypeError: cannot read properties of undefined (reading actualScheduledTime)" ∧
    deserializeCollatedTrainV2 (.obj [("timesAPI",
        .obj [("plannedDestinations", .arr [.obj [("name", .str "X")]])])])
      = .ok (.obj [("timesAPI",
        .obj [("plannedDestinations", .arr [.obj [("name", .str "X")]])])]) ∧
    deserializeCollatedTrainV2 (.obj [("timesAPI",
        .obj [("nextPlatforms", .arr [.obj [("code", .str "MTW;4")]])])])
      = .ok (.obj [("timesAPI",
        .obj [("nextPlatforms", .arr [.obj [("code", .str "MTW;4")]])])]) :=
  ⟨rfl, rfl, rfl, rfl⟩

/-- C5 counterexample: the `active` flag of the train-history endpoint is
serialized as `active=0` when `false` (and `active=1` when `true`), so a
false flag does produce a parameter and a true flag is not valueless —
refuting "presence, not value, carries the meaning" for this flag. -/
theorem c5_active_flag_has_value :
    getTrainHistoryQuery (some ⟨none, none, some false, none⟩) = [("active", "0")] ∧
    getTrainHistoryQuery (some ⟨none, none, some true, none⟩) = [("active", "1")] :=
  ⟨rfl, rfl⟩

/-- C6 counterexample: the older revision's `stream` method always appends
a `type` parameter, defaulting it to `"all"` when the caller gives no
options at all — the unspecified `type` option is not omitted. -/
theorem c6_stream_type_defaulted : streamQuery none = [("type", "all")] := rfl

/-- C8 counterexample: the older revision's `stream` onMessage handles an
unrecognized event kind with no actions at all — in particular it emits no
warning-level signal, refuting "the unrecognized kind is reported as a
warning-level signal" for this handler (its switch has no default). -/
theorem c8_unknown_kind_silent_in_old_stream :
    streamOnMessageV1 ⟨true, true, true⟩ "station-due-times" (.obj [("date", .num 5)]) = .ok [] :=
  rfl

/-- C3 counterexample: `getTrains` does not operate on a copy — it
converts `lastChecked` in place on the decoded response object, so after
the call the decoded object no longer equals its original value. -/
theorem c3_getTrains_mutates_decoded :
    ¬ getTrainsDataAfter (.obj [("lastChecked", .num 100)])
        = .ok (.obj [("lastChecked", .num 100)]) := by
  intro h
  have h2 : (Except.ok (Json.obj [("lastChecked", .date (some 100))]) : Except String Json)
      = .ok (.obj [("lastChecked", .num 100)]) := h
  simp at h2

/-- C4 counterexample: a present `date` field that is not parseable as an
instant ("not a date") is silently converted to an Invalid Date (a date
with NaN time value) by `deserializeHistoryEntry` — no data-integrity error
is surfaced to the caller. -/
theorem c4_invalid_date_silent :
    deserializeHistoryEntry (.obj [("date", .str "not a date"), ("active", .bool false)])
      = .ok (.obj [("date", .date none), ("active", .bool false)]) := rfl

/-- C10: when a trains-bearing response or new-history event payload has
its `trains` field as an array (the `props=trains.keys` case), `getTrains`,
the older `stream` handler and the current `streamHistory` handler all
return or deliver that array exactly as received — the returned or
delivered record's `trains` field is the identical array, with no element
normalized. -/
theorem c10_trains_array_passthrough :
    (∀ (fs : List (String × Json)) (xs : List Json),
        fs.lookup "trains" = some (.arr xs) →
        ∃ r, getTrainsNormalize (.obj fs) = .ok r ∧ r.get "trains" = some (.arr xs)) ∧
    (∀ (fs : List (String × Json)) (xs : List Json) (cbs : StreamCallbacksReg),
        cbs.onNewHistory = true →
        fs.lookup "trains" = some (.arr xs) →
        ∃ p, streamOnMessageV1 cbs "new-history" (.obj fs) = .ok [.newHistory p] ∧
             p.get "trains" = some (.arr xs)) ∧
    (∀ (fs : List (String × Json)) (xs : List Json),
        fs.lookup "trains" = some (.arr xs) →
        ∃ p, streamHistoryOnMessage "new-trains-history" (.obj fs)
               = .ok [.newTrainHistoryEntries p] ∧
             p.get "trains" = some (.arr xs)) := by
  refine ⟨?_, ?_, ?_⟩
  · intro fs xs h
    unfold getTrainsNormalize
    simp only [jsAccess_obj, except_bind_ok]
    cases hlc : truthy (fs.lookup "lastChecked") with
    | false =>
      simp only [hlc, if_false, Bool.false_eq_true, jsAccess_obj, except_bind_ok, h]
      refine ⟨.obj fs, ?_, by simp [h]⟩
      simp [truthy, isArr]
    | true =>
      simp only [hlc, if_true, Json.set_obj, jsAccess_obj, except_bind_ok]
      rw [lookup_setKey_ne fs "lastChecked" "trains" _ (by decide), h]
      refine ⟨.obj (setKey fs "lastChecked" (jsNewDate (fs.lookup "lastChecked"))), ?_, ?_⟩
      · simp [truthy, isArr]
      · simp [lookup_setKey_ne fs "lastChecked" "trains" _ (by decide), h]
  · intro fs xs cbs hcb h
    unfold streamOnMessageV1
    simp only [if_true, jsAccess_obj, except_bind_ok, reduceIte]
    cases hd : (fs.lookup "date").isSome with
    | false =>
      simp only [hd, if_false, Bool.false_eq_true, jsAccess_obj, except_bind_ok, h]
      refine ⟨.obj fs, ?_, by simp [h]⟩
      simp [truthy, isArr, hcb]
    | true =>
      simp only [hd, if_true, Json.set_obj, jsAccess_obj, except_bind_ok]
      rw [lookup_setKey_ne fs "date" "trains" _ (by decide), h]
      refine ⟨.obj (setKey fs "date" (jsNewDate (fs.lookup "date"))), ?_, ?_⟩
      · simp [truthy, isArr, hcb]
      · simp [lookup_setKey_ne fs "date" "trains" _ (by decide), h]
  · intro fs xs h
    unfold streamHistoryOnMessage
    simp only [jsAccess_obj, except_bind_ok]
    cases hd : (fs.lookup "date").isSome with
    | false =>
      simp only [hd, if_false, Bool.false_eq_true, jsAccess_obj, except_bind_ok, h]
      refine ⟨.obj fs, ?_, by simp [h]⟩
      simp [truthy, isArr]
    | true =>
      simp only [hd, if_true, Json.set_obj, jsAccess_obj, except_bind_ok]
      rw [lookup_setKey_ne fs "date" "trains" _ (by decide), h]
      refine ⟨.obj (setKey fs "date" (jsNewDate (fs.lookup "date"))), ?_, ?_⟩
      · simp [truthy, isArr]
      · simp [lookup_setKey_ne fs "date" "trains" _ (by decide), h]

-- membership lemmas for the query combinators
theorem mem_appendIfPresent {α : Type} {name n v : String} {f : α → String} {o : Option α}
    (h : (n, v) ∈ appendIfPresent name f o) : n = name ∧ o.isSome := by
  cases o with
  | none => simp [appendIfPresent] at h
  | some x =>
    simp [appendIfPresent] at h
    exact ⟨h.1, rfl⟩

theorem mem_appendIfTruthyNum {name n v : String} {o : Option Int}
    (h : (n, v) ∈ appendIfTruthyNum name o) : n = name ∧ o.isSome := by
  cases o with
  | none => simp [appendIfTruthyNum] at h
  | some l =>
    by_cases hl : l = 0
    · simp [appendIfTruthyNum, hl] at h
    · simp [appendIfTruthyNum, hl] at h
      exact ⟨h.1, rfl⟩

theorem mem_appendIfTrue {name n v : String} {o : Option Bool}
    (h : (n, v) ∈ appendIfTrue name o) : n = name ∧ o = some true := by
  cases o with
  | none => simp [appendIfTrue] at h
  | some b =>
    cases b
    · simp [appendIfTrue] at h
    · simp [appendIfTrue] at h
      exact ⟨h.1, rfl⟩

theorem mem_appendActive {n v : String} {o : Option Bool}
    (h : (n, v) ∈ appendActive o) : n = "active" ∧ o.isSome := by
  cases o with
  | none => simp [appendActive] at h
  | some a => simp [appendActive] at h; exact ⟨h.1, rfl⟩

theorem mem_timetableStringOpt {name n v : String} {o : Option String}
    (h : (n, v) ∈ timetableStringOpt name o) : n = name ∧ o.isSome := by
  cases o with
  | none => simp [timetableStringOpt] at h
  | some x =>
    by_cases hx : x = ""
    · simp [timetableStringOpt, hx] at h
    · simp [timetableStringOpt, hx] at h
      exact ⟨h.1, rfl⟩

theorem appendIfTrue_mem_iff (name : String) (o : Option Bool) (v : String) :
    ((name, v) ∈ appendIfTrue name o) ↔ (o = some true ∧ v = "") := by
  cases o with
  | none => simp [appendIfTrue]
  | some b => cases b <;> simp [appendIfTrue]

theorem appendActive_mem_iff (o : Option Bool) (v : String) :
    (("active", v) ∈ appendActive o) ↔
      ((o = some true ∧ v = "1") ∨ (o = some false ∧ v = "0")) := by
  cases o with
  | none => simp [appendActive]
  | some b => cases b <;> simp [appendActive]

/-- C5 (amended): the `warnings` flag (heartbeat-errors endpoint, and the
heartbeat-errors stream where it is driven by the presence of the warnings
callback) is serialized as a present-but-valueless parameter exactly when
true and omitted otherwise; but `active` is serialized with an explicit
`'1'`/`'0'` value whenever specified — including `false` — and omitted only
when left unspecified. -/
theorem c5_flag_encoding :
    (∀ (o : HeartbeatErrorsOptions) (v : String),
        (("warnings", v) ∈ getHeartbeatErrorsQuery (some o)) ↔
          (o.warnings = some true ∧ v = "")) ∧
    (∀ (hasCb : Bool) (apis : Option (List String)) (v : String),
        (("warnings", v) ∈ streamHeartbeatErrorsQuery hasCb apis) ↔
          (hasCb = true ∧ v = "")) ∧
    (∀ (o : TrainHistoryOptions) (v : String),
        (("active", v) ∈ getTrainHistoryQuery (some o)) ↔
          ((o.active = some true ∧ v = "1") ∨ (o.active = some false ∧ v = "0"))) := by
  refine ⟨?_, ?_, ?_⟩
  · rintro ⟨w, t, a⟩ v
    simp only [getHeartbeatErrorsQuery, List.mem_append]
    constructor
    · rintro ((h | h) | h)
      · exact (appendIfTrue_mem_iff "warnings" w v).mp h
      · exact absurd (mem_appendIfPresent h).1 (by decide)
      · exact absurd (mem_appendIfPresent h).1 (by decide)
    · intro h
      exact Or.inl (Or.inl ((appendIfTrue_mem_iff "warnings" w v).mpr h))
  · intro hasCb apis v
    cases hasCb <;> cases apis <;> simp [streamHeartbeatErrorsQuery, appendIfPresent]
  · rintro ⟨t, l, a, p⟩ v
    simp only [getTrainHistoryQuery, List.mem_append]
    constructor
    · rintro (((h | h) | h) | h)
      · exact absurd (mem_appendIfPresent h).1 (by decide)
      · exact absurd (mem_appendIfTruthyNum h).1 (by decide)
      · exact (appendActive_mem_iff a v).mp h
      · exact absurd (mem_appendIfPresent h).1 (by decide)
    · intro h
      exact Or.inl (Or.inr ((appendActive_mem_iff a v).mpr h))

/-- C6 (amended): every embedded request builder emits no parameter for an
option the caller leaves unspecified — empty options objects produce empty
queries, and any emitted parameter's name belongs to an option that was
actually specified (for `limit`, specified and non-zero; for the stream's
`warnings`, specified as true) — with the single exception of the older
`stream` method's `type` parameter, which is always present and defaults to
`"all"`. -/
theorem c6_unspecified_omitted :
    streamQuery none = [("type", "all")] ∧
    getTrainsQuery none = [] ∧
    getTrainHistoryQuery none = [] ∧
    getHeartbeatErrorsQuery none = [] ∧
    getTimetableQuery none = [] ∧
    streamHistoryQuery none = [] ∧
    streamHeartbeatErrorsQuery false none = [] ∧
    (∀ (o : TrainsOptions) (n v : String), (n, v) ∈ getTrainsQuery (some o) →
        n = "props" ∧ o.props.isSome) ∧
    (∀ (o : TrainHistoryOptions) (n v : String), (n, v) ∈ getTrainHistoryQuery (some o) →
        (n = "time" ∧ o.time.isSome) ∨ (n = "limit" ∧ o.limit.isSome) ∨
        (n = "active" ∧ o.active.isSome) ∨ (n = "props" ∧ o.props.isSome)) ∧
    (∀ (o : HeartbeatErrorsOptions) (n v : String), (n, v) ∈ getHeartbeatErrorsQuery (some o) →
        (n = "warnings" ∧ o.warnings = some true) ∨ (n = "time" ∧ o.time.isSome) ∨
        (n = "apis" ∧ o.apis.isSome)) ∧
    (∀ (o : TimetableOptions) (n v : String), (n, v) ∈ getTimetableQuery (some o) →
        (n = "trn" ∧ o.trn.isSome) ∨ (n = "station" ∧ o.station.isSome) ∨
        (n = "direction" ∧ o.direction.isSome) ∨
        (n = "emptyManeuvers" ∧ o.emptyManeuvers.isSome) ∨
        (n = "date" ∧ o.date.isSome) ∨ (n = "emptyManeuverProps" ∧ o.emptyManeuverProps.isSome) ∨
        (n = "tableProps" ∧ o.tableProps.isSome)) ∧
    (∀ (o : StreamOptions) (n v : String), (n, v) ∈ streamQuery (some o) →
        n = "type" ∨ (n = "trains" ∧ o.trns.isSome) ∨ (n = "warnings" ∧ o.warnings = some true) ∨
        (n = "apis" ∧ o.apis.isSome)) := by
  refine ⟨rfl, rfl, rfl, rfl, rfl, rfl, rfl, ?_, ?_, ?_, ?_, ?_⟩
  · intro o n v h
    exact mem_appendIfPresent h
  · intro o n v h
    simp only [getTrainHistoryQuery, List.mem_append] at h
    rcases h with ((h | h) | h) | h
    · exact Or.inl (mem_appendIfPresent h)
    · exact Or.inr (Or.inl (mem_appendIfTruthyNum h))
    · exact Or.inr (Or.inr (Or.inl (mem_appendActive h)))
    · exact Or.inr (Or.inr (Or.inr (mem_appendIfPresent h)))
  · intro o n v h
    simp only [getHeartbeatErrorsQuery, List.mem_append] at h
    rcases h with (h | h) | h
    · exact Or.inl (mem_appendIfTrue h)
    · exact Or.inr (Or.inl (mem_appendIfPresent h))
    · exact Or.inr (Or.inr (mem_appendIfPresent h))
  · intro o n v h
    simp only [getTimetableQuery, List.mem_append] at h
    rcases h with ((((((h | h) | h) | h) | h) | h) | h)
    · exact Or.inl (mem_timetableStringOpt h)
    · exact Or.inr (Or.inl (mem_timetableStringOpt h))
    · exact Or.inr (Or.inr (Or.inl (mem_timetableStringOpt h)))
    · exact Or.inr (Or.inr (Or.inr (Or.inl (mem_timetableStringOpt h))))
    · exact Or.inr (Or.inr (Or.inr (Or.inr (Or.inl (mem_appendIfPresent h)))))
    · exact Or.inr (Or.inr (Or.inr (Or.inr (Or.inr (Or.inl (mem_appendIfPresent h))))))
    · exact Or.inr (Or.inr (Or.inr (Or.inr (Or.inr (Or.inr (mem_appendIfPresent h))))))
  · intro o n v h
    simp only [streamQuery, List.mem_cons] at h
    rcases h with h | h
    · exact Or.inl (congrArg Prod.fst h)
    · by_cases ht : o.type = some .trains
      · rw [if_pos ht] at h
        exact Or.inr (Or.inl (mem_appendIfPresent h))
      · rw [if_neg ht] at h
        by_cases he : o.type = some .errors
        · rw [if_pos he] at h
          rcases List.mem_append.mp h with h | h
          · exact Or.inr (Or.inr (Or.inl (mem_appendIfTrue h)))
          · exact Or.inr (Or.inr (Or.inr (mem_appendIfPresent h)))
        · rw [if_neg he] at h
          simp at h

theorem getTrainsNormalize_lastChecked (fs : List (String × Json)) (n : Int)
    (hn : n ≠ 0) (h : List.lookup "lastChecked" fs = some (.num n)) (r : Json)
    (hr : getTrainsNormalize (.obj fs) = .ok r) :
    r.get "lastChecked" = some (.date (some n)) := by
  unfold getTrainsNormalize at hr
  simp only [jsAccess_obj, except_bind_ok, h] at hr
  rw [show truthy (some (.num n)) = true by simp [truthy, hn]] at hr
  simp only [if_true, Json.set_obj, jsNewDate, jsAccess_obj, except_bind_ok] at hr
  cases htr : (truthy (List.lookup "trains" (setKey fs "lastChecked" (.date (some n)))) &&
      !isArr (List.lookup "trains" (setKey fs "lastChecked" (.date (some n))))) with
  | false =>
    rw [htr] at hr
    simp only [Bool.false_eq_true, if_false, except_pure] at hr
    cases hr
    simp [lookup_setKey_self]
  | true =>
    rw [htr] at hr
    simp only [if_true] at hr
    cases hl : List.lookup "trains" (setKey fs "lastChecked" (.date (some n))) with
    | none =>
      rw [hl] at hr
      have hr2 : (Except.ok (Json.obj (setKey fs "lastChecked" (Json.date (some n))))
          : Except String Json) = .ok r := hr
      cases hr2
      simp [lookup_setKey_self]
    | some tv =>
      rw [hl] at hr
      cases tv with
      | obj gs =>
        have hr2 : (gs.mapM (fun kv => do
              let v2 ← normTrainEntryV1 kv.2
              pure (kv.1, v2)) >>= fun fs2 =>
                pure (Json.obj (setKey (setKey fs "lastChecked" (Json.date (some n)))
                  "trains" (Json.obj fs2))) : Except String Json) = .ok r := hr
        cases hm : gs.mapM (fun kv => do
            let v2 ← normTrainEntryV1 kv.2
            pure (kv.1, v2)) with
        | error e => rw [hm] at hr2; simp at hr2
        | ok gs2 =>
          rw [hm] at hr2
          simp only [except_bind_ok, except_pure] at hr2
          cases hr2
          simp only [Json.get_obj]
          rw [lookup_setKey_ne _ "trains" "lastChecked" _ (by decide), lookup_setKey_self]
      | null =>
        have hr2 : (Except.ok (Json.obj (setKey fs "lastChecked" (Json.date (some n))))
            : Except String Json) = .ok r := hr
        cases hr2; simp [lookup_setKey_self]
      | bool b =>
        have hr2 : (Except.ok (Json.obj (setKey fs "lastChecked" (Json.date (some n))))
            : Except String Json) = .ok r := hr
        cases hr2; simp [lookup_setKey_self]
      | num m =>
        have hr2 : (Except.ok (Json.obj (setKey fs "lastChecked" (Json.date (some n))))
            : Except String Json) = .ok r := hr
        cases hr2; simp [lookup_setKey_self]
      | str s2 =>
        have hr2 : (Except.ok (Json.obj (setKey fs "lastChecked" (Json.date (some n))))
            : Except String Json) = .ok r := hr
        cases hr2; simp [lookup_setKey_self]
      | date t2 =>
        have hr2 : (Except.ok (Json.obj (setKey fs "lastChecked" (Json.date (some n))))
            : Except String Json) = .ok r := hr
        cases hr2; simp [lookup_setKey_self]
      | arr l2 =>
        have hr2 : (Except.ok (Json.obj (setKey fs "lastChecked" (Json.date (some n))))
            : Except String Json) = .ok r := hr
        cases hr2; simp [lookup_setKey_self]

/-- C3 (amended): the per-record deserialize helpers clone before
converting, leaving their argument exactly as it was; but the facade
methods mutate the decoded response object in place — whenever the decoded
`getTrains` response has a truthy numeric `lastChecked`, the object's
post-call state differs from the original decoded value. -/
theorem c3_clone_helpers_vs_inplace_facade (d : Json) (n : Int) (hn : n ≠ 0)
    (h : d.get "lastChecked" = some (.num n)) :
    (∀ t, deserializeCollatedTrainArgAfter t = t) ∧ getTrainsDataAfter d ≠ .ok d := by
  obtain ⟨fs, rfl⟩ : ∃ fs, d = .obj fs := by
    cases d <;> first | exact ⟨_, rfl⟩ | simp [Json.get] at h
  refine ⟨fun t => rfl, fun hEq => ?_⟩
  have hlc := getTrainsNormalize_lastChecked fs n hn (by simpa using h) _ hEq
  rw [Json.get_obj] at hlc
  rw [Json.get_obj] at h
  rw [h] at hlc
  simp at hlc

/-- Witness for C3 at a concrete decoded response. -/
theorem c3_mutation_witness :
    (∀ t, deserializeCollatedTrainArgAfter t = t) ∧
    getTrainsDataAfter (.obj [("lastChecked", .num 42), ("trains", .obj [])])
      ≠ .ok (.obj [("lastChecked", .num 42), ("trains", .obj [])]) :=
  c3_clone_helpers_vs_inplace_facade (.obj [("lastChecked", .num 42), ("trains", .obj [])]) 42 (by decide) rfl

/-- C4 (amended): a present but unparseable temporal field never raises
an error — `new Date` yields an Invalid Date silently, which is what the
caller receives; and a legitimately absent temporal field is likewise never
an error (the record is returned with the field still absent). -/
theorem c4_no_error_on_unparseable_or_absent (fs : List (String × Json)) (s : String)
    (hdate : List.lookup "date" fs = some (.str s))
    (hbad : parseDateString s = none)
    (hst : truthy (List.lookup "status" fs) = false) :
    deserializeHistoryEntry (.obj fs) = .ok (.obj (setKey fs "date" (.date none))) ∧
    (∀ fs2 : List (String × Json), List.lookup "date" fs2 = none →
        truthy (List.lookup "status" fs2) = false →
        deserializeHistoryEntry (.obj fs2) = .ok (.obj fs2)) := by
  constructor
  · unfold deserializeHistoryEntry
    simp only [jsAccess_obj, except_bind_ok, hdate, Option.isSome_some, if_true,
      jsNewDate, hbad, Json.set_obj, jsAccess_obj, except_bind_ok]
    rw [lookup_setKey_ne _ "date" "status" _ (by decide), hst]
    simp
  · intro fs2 hd2 hs2
    unfold deserializeHistoryEntry
    simp only [jsAccess_obj, except_bind_ok, hd2, Option.isSome_none, Bool.false_eq_true,
      if_false, hs2]
    simp

/-- Witness for C4 at a concrete unparseable string and a concrete
record with no `date` field. -/
theorem c4_concrete_witness :
    deserializeHistoryEntry (.obj [("date", .str "nope"), ("active", .bool false)])
      = .ok (.obj [("date", .date none), ("active", .bool false)]) ∧
    deserializeHistoryEntry (.obj [("active", .bool true)])
      = .ok (.obj [("active", .bool true)]) := by
  have h := c4_no_error_on_unparseable_or_absent [("date", .str "nope"), ("active", .bool false)] "nope" rfl rfl rfl
  exact ⟨h.1, h.2 [("active", .bool true)] rfl rfl⟩

/-- C8 (amended): for an inbound frame whose event-kind label is none of
the recognized kinds, neither handler closes the connection or invokes any
registered payload callback: the older `stream` handler performs no action
at all (silently ignoring the frame), while the current `streamHistory`
handler performs exactly one console warning. -/
theorem c8_unknown_kind_no_dispatch (kind : String) (data : Json) (cbs : StreamCallbacksReg)
    (h1 : kind ≠ "new-history") (h2 : kind ≠ "heartbeat-error")
    (h3 : kind ≠ "heartbeat-warning") (h4 : kind ≠ "new-trains-history") :
    streamOnMessageV1 cbs kind data = .ok [] ∧
    (∀ fs : List (String × Json),
        streamHistoryOnMessage kind (.obj fs)
          = .ok [.warn ("Unknown event type: " ++ kind)]) := by
  constructor
  · unfold streamOnMessageV1
    simp [h1, h2, h3]
  · intro fs
    unfold streamHistoryOnMessage
    simp only [jsAccess_obj, except_bind_ok]
    cases hd : (List.lookup "date" fs).isSome with
    | false => simp [hd, h4, h2, h3]
    | true => simp [hd, h4, h2, h3]

/-- Witness for C8 at the concrete unrecognized kind
"station-due-times-x". -/
theorem c8_unknown_kind_witness :
    streamOnMessageV1 ⟨true, true, true⟩ "station-due-times-x" (.obj [("date", .num 5)])
      = .ok [] ∧
    streamHistoryOnMessage "station-due-times-x" (.obj [("date", .num 5)])
      = .ok [.warn ("Unknown event type: " ++ "station-due-times-x")] := by
  have h := c8_unknown_kind_no_dispatch "station-due-times-x" (.obj [("date", .num 5)]) ⟨true, true, true⟩
    (by decide) (by decide) (by decide) (by decide)
  exact ⟨h.1, h.2 [("date", .num 5)]⟩

/-- Witness for C10 at a concrete response whose `trains` is an array of
TRN strings. -/
theorem c10_passthrough_witness :
    ∃ r, getTrainsNormalize (.obj [("lastChecked", .num 5), ("trains", .arr [.str "101"])])
        = .ok r ∧
      r.get "trains" = some (.arr [.str "101"]) :=
  c10_trains_array_passthrough.1 [("lastChecked", .num 5), ("trains", .arr [.str "101"])] [.str "101"] rfl

/-- Witness for C6 at a concrete train-history query containing only a
`time` parameter. -/
theorem c6_omission_witness :
    ("time" = "time" ∧ (some (TimeFilter.atTime 5)).isSome) ∨
    ("time" = "limit" ∧ (none : Option Int).isSome) ∨
    ("time" = "active" ∧ (none : Option Bool).isSome) ∨
    ("time" = "props" ∧ (none : Option (List String)).isSome) :=
  c6_unspecified_omitted.2.2.2.2.2.2.2.2.1 ⟨some (.atTime 5), none, none, none⟩ "time" "5"
    (List.mem_singleton.mpr rfl)
